import Mathlib

/-!
Verification development for a two-phase-commit (2PC) protocol simulator.

The simulator has a single `TransactionCoordinator` that owns a participant
registry and a shared transaction-state table, and `Participant`s that answer
prepare requests with a vote, write their resulting state directly into the
coordinator's table, and react to commit/abort notifications.

The embedding is a shallow one:
 * the coordinator's `transaction_state` Python dict becomes an association
   list with Python-dict semantics (`dictSet` replaces the binding in place or
   appends a fresh one at the end; `dictPop` removes the binding when present
   and is a no-op otherwise); well-formedness (`TableWF`, no duplicate keys)
   is the structural invariant every Python dict enjoys;
 * randomness (the `random.random() < 0.8` weighted draw and the
   `random.randint(0, 10)` jitter delays) is passed in explicitly: each call
   takes the draw outcome as a `Bool` and the jitter as a `Nat`;
 * `time.sleep` calls and console prints become entries of an event trace,
   so that ordering claims can be stated over the trace; the post-vote stall
   of `receive_prepare` is additionally surfaced as the `stall` field of its
   result;
 * the Python methods become pure functions from the pre-state to the
   post-state together with the trace of events the call emits.
-/

set_option linter.unusedVariables false

/-- The per-transaction state stored in the coordinator's shared table:
`"INIT"`, `"PREPARED"` or `"ABORTED"` in the source. -/
inductive TState where
  | INIT
  | PREPARED
  | ABORTED
deriving DecidableEq, Repr

/-- A participant's vote on a prepare request: `"YES"` or `"NO"` in the source. -/
inductive Vote where
  | YES
  | NO
deriving DecidableEq, Repr

/-- The coordinator's `transaction_state` dict: transaction id to state. -/
abbrev Table := List (Nat × TState)

/-- Python dict assignment `d[k] = v`: replace the binding for `k` in place if
present, otherwise append a fresh binding at the end. -/
def dictSet (m : Table) (k : Nat) (v : TState) : Table :=
  match m with
  | [] => [(k, v)]
  | (k', v') :: rest => if k' = k then (k, v) :: rest else (k', v') :: dictSet rest k v

/-- Python `d.pop(k, None)`: remove the binding for `k` when present, no-op
(and no exception) when absent. -/
def dictPop (m : Table) (k : Nat) : Table :=
  match m with
  | [] => []
  | (k', v') :: rest => if k' = k then rest else (k', v') :: dictPop rest k

/-- Well-formedness of the table: no duplicate keys.  Every Python dict
satisfies this by construction. -/
def TableWF (m : Table) : Prop := (m.map Prod.fst).Nodup

instance : DecidablePred TableWF := fun m => by
  unfold TableWF; infer_instance

/-- A participant: its number and its connection token (`None` or a handle). -/
structure Participant where
  participant_number : Nat
  connection : Option Nat
deriving DecidableEq, Repr

/-- The coordinator's mutable state: the participant registry
(`self.participants`, participant number to participant) and the shared
transaction-state table (`self.transaction_state`). -/
structure TransactionCoordinator where
  participants : List (Nat × Participant)
  transaction_state : Table
deriving DecidableEq, Repr

/-- Observable events of a run: console prints, sleeps, and the calls the
coordinator issues, in program order. -/
inductive Event where
  /-- A `print` of the coordinator's prepare message for a transaction. -/
  | prepareMsg (tid : Nat)
  /-- A `time.sleep` of the given duration by the coordinator. -/
  | sleepEv (d : Nat)
  /-- A `print` of the coordinator's commit message for a transaction. -/
  | commitMsg (tid : Nat)
  /-- A `print` of the committed line for a transaction. -/
  | committedLog (tid : Nat)
  /-- A `print` of the aborted line for a transaction. -/
  | abortedLog (tid : Nat)
  /-- The coordinator pops the transaction's entry from the state table
  on the commit path. -/
  | removeEntry (tid : Nat)
  /-- A participant's random jitter sleep at the start of a handler. -/
  | jitterSleep (pid : Nat) (d : Nat)
  /-- A participant's `print` on receiving a commit message. -/
  | receiveCommitMsg (pid : Nat) (tid : Nat)
  /-- A participant's `print` that it is committing (state read `PREPARED`). -/
  | commitOk (pid : Nat) (tid : Nat)
  /-- A participant's `print` of an unexpected commit message. -/
  | unexpectedCommit (pid : Nat) (tid : Nat)
  /-- The coordinator's synchronous `wait_commit_finish` call to a participant. -/
  | waitFinish (pid : Nat) (tid : Nat)
  /-- A participant closing its connection while aborting. -/
  | closeConn (pid : Nat) (tid : Nat)
deriving DecidableEq, Repr

/-- Result of `Participant.receive_prepare`: the vote returned to the
coordinator, the transaction-state table after the call's direct write into
the coordinator's shared table, and `stall`, the time the participant sleeps
after its vote (and table write) are determined but before it returns
(`timeout + 1` in the fail-after-one-commit injection, `0` otherwise).
The pre-vote random jitter sleep is pure pacing with no state effect and is
not recorded here. -/
structure PrepareResult where
  vote : Vote
  table : Table
  stall : Nat
deriving DecidableEq, Repr

namespace Participant

/-- Method `Participant.connect`: record a connection token. -/
def connect (self : Participant) (connection : Nat) : Participant :=
  { self with connection := some connection }

/-- Method `Participant.receive_prepare`, with the weighted random draw
(`random.random() < 0.8`) passed in as `draw`:
 1. if `fail_before_prepare` is set, return `NO` immediately (no table write);
 2. otherwise vote `YES` iff this participant's number is among
    `client_numbers` and the draw succeeded;
 3. write `ABORTED` (on `NO`) or `PREPARED` (on `YES`) into the coordinator's
    shared table under this transaction id;
 4. on `YES`, if `fail_after_one_commit` is set and this participant's number
    is `1`, sleep `timeout + 1` before returning (the `stall` field). -/
def receive_prepare (self : Participant) (transaction_id : Nat)
    (client_numbers : List Nat) (participant_count : Nat) (timeout : Nat)
    (fail_before_prepare fail_after_one_commit : Bool)
    (draw : Bool) (ts : Table) : PrepareResult :=
  if fail_before_prepare then
    { vote := Vote.NO, table := ts, stall := 0 }
  else
    let response : Vote :=
      if self.participant_number ∈ client_numbers ∧ draw = true then Vote.YES else Vote.NO
    if response = Vote.NO then
      { vote := response, table := dictSet ts transaction_id TState.ABORTED, stall := 0 }
    else
      { vote := response
        table := dictSet ts transaction_id TState.PREPARED
        stall := if fail_after_one_commit = true ∧ self.participant_number = 1
                 then timeout + 1 else 0 }

/-- Method `Participant.receive_commit`: sleep a random jitter, then read the
coordinator's shared table; log a successful commit when it reads `PREPARED`,
an unexpected-commit condition otherwise.  No state is modified. -/
def receive_commit (self : Participant) (transaction_id : Nat) (jitter : Nat)
    (s : TransactionCoordinator) : TransactionCoordinator × List Event :=
  (s,
   Event.jitterSleep self.participant_number jitter ::
   Event.receiveCommitMsg self.participant_number transaction_id ::
   (if s.transaction_state.lookup transaction_id = some TState.PREPARED then
      [Event.commitOk self.participant_number transaction_id]
    else
      [Event.unexpectedCommit self.participant_number transaction_id]))

/-- Method `Participant.wait_commit_finish`: a `pass` body; the call itself is the
observable event. -/
def wait_commit_finish (self : Participant) (transaction_id : Nat) : List Event :=
  [Event.waitFinish self.participant_number transaction_id]

/-- Method `Participant.abort_transaction`: tear down the connection token if present. -/
def abort_transaction (self : Participant) (transaction_id : Nat) :
    Participant × List Event :=
  if self.connection.isSome then
    ({ self with connection := none },
     [Event.closeConn self.participant_number transaction_id])
  else
    (self, [])

end Participant

namespace TransactionCoordinator

/-- Method `TransactionCoordinator.add_participant`: register a participant; the last
registration for a number wins (Python dict assignment keyed by number; the
registry keys in `main` are the participant numbers themselves, so in the
common nodup-key case this appends). -/
def add_participant (s : TransactionCoordinator) (participant_number : Nat)
    (participant : Participant) : TransactionCoordinator :=
  { s with participants :=
      if s.participants.any (fun pr => pr.1 = participant_number) then
        s.participants.map (fun pr =>
          if pr.1 = participant_number then (participant_number, participant) else pr)
      else
        s.participants ++ [(participant_number, participant)] }

/-- The vote-collection loop at the top of `send_prepare`: call
`receive_prepare` on every registered participant in registry order,
threading the shared transaction-state table through the calls, and record
each participant's returned vote under its registry key.  `draws pid` is the
weighted random draw outcome for participant `pid`'s call. -/
def collect_votes (transaction_id : Nat) (client_numbers : List Nat)
    (participant_count : Nat) (timeout : Nat)
    (fail_before_prepare fail_after_one_commit : Bool) (draws : Nat → Bool) :
    List (Nat × Participant) → Table → List (Nat × Vote) × Table
  | [], ts => ([], ts)
  | pr :: rest, ts =>
    let r := pr.2.receive_prepare transaction_id client_numbers participant_count
        timeout fail_before_prepare fail_after_one_commit (draws pr.1) ts
    let rec_result := collect_votes transaction_id client_numbers participant_count
        timeout fail_before_prepare fail_after_one_commit draws rest r.table
    ((pr.1, r.vote) :: rec_result.1, rec_result.2)

/-- The commit-notification loop of `send_commit`: call `receive_commit` on
every registered participant in registry order, threading the coordinator
state through the calls and concatenating the emitted events. -/
def notifyAll (transaction_id : Nat) (jitters : Nat → Nat) :
    List (Nat × Participant) → TransactionCoordinator →
    TransactionCoordinator × List Event
  | [], s => (s, [])
  | pr :: rest, s =>
    let c := pr.2.receive_commit transaction_id (jitters pr.1) s
    let rest_result := notifyAll transaction_id jitters rest c.1
    (rest_result.1, c.2 ++ rest_result.2)

/-- Method `TransactionCoordinator.send_commit`: print the commit message, send a
commit notification to every registered participant, print the committed
line, synchronously call `wait_commit_finish` on every registered
participant, pop the transaction's entry from the state table, and sleep one
time unit simulating a disk write. -/
def send_commit (transaction_id : Nat) (jitters : Nat → Nat)
    (s : TransactionCoordinator) : TransactionCoordinator × List Event :=
  let notified := notifyAll transaction_id jitters s.participants s
  let s1 := notified.1
  let waitEvs :=
    (s1.participants.map (fun pr => pr.2.wait_commit_finish transaction_id)).flatten
  ({ s1 with transaction_state := dictPop s1.transaction_state transaction_id },
   Event.commitMsg transaction_id :: notified.2
     ++ Event.committedLog transaction_id :: waitEvs
     ++ [Event.removeEntry transaction_id, Event.sleepEv 1])

/-- The abort-notification loop of `abort_transaction`: invoke the
`abort_transaction` hook of every registered participant in registry order,
keeping the updated participants in the registry. -/
def abortAll (transaction_id : Nat) :
    List (Nat × Participant) → List (Nat × Participant) × List Event
  | [] => ([], [])
  | pr :: rest =>
    let a := pr.2.abort_transaction transaction_id
    let rest_result := abortAll transaction_id rest
    ((pr.1, a.1) :: rest_result.1, a.2 ++ rest_result.2)

/-- Method `TransactionCoordinator.abort_transaction`: print the aborted line,
invoke every registered participant's abort hook (tearing down its
connection), and pop the transaction's entry from the state table. -/
def abort_transaction (transaction_id : Nat) (s : TransactionCoordinator) :
    TransactionCoordinator × List Event :=
  let aborted := abortAll transaction_id s.participants
  ({ participants := aborted.1
     transaction_state := dictPop s.transaction_state transaction_id },
   Event.abortedLog transaction_id :: aborted.2)

/-- Method `TransactionCoordinator.handle_prepare_response`: if every collected
response is `YES`, commit; else if any response is `NO`, abort; otherwise
(the fallback branch) abort as well. -/
def handle_prepare_response (transaction_id : Nat) (jitters : Nat → Nat)
    (responses : List (Nat × Vote)) (s : TransactionCoordinator) :
    TransactionCoordinator × List Event :=
  if ∀ r ∈ responses, r.2 = Vote.YES then
    send_commit transaction_id jitters s
  else if ∃ r ∈ responses, r.2 = Vote.NO then
    abort_transaction transaction_id s
  else
    abort_transaction transaction_id s

/-- Method `TransactionCoordinator.send_prepare`, one complete prepare round: print
the prepare message, collect every registered participant's vote (threading
the shared table through the synchronous calls), sleep for the fixed
`timeout`, then hand the collected responses to `handle_prepare_response`. -/
def send_prepare (transaction_id : Nat) (client_numbers : List Nat)
    (participant_count : Nat) (timeout : Nat)
    (fail_before_prepare fail_after_one_commit : Bool)
    (draws : Nat → Bool) (jitters : Nat → Nat) (s : TransactionCoordinator) :
    TransactionCoordinator × List Event :=
  let collected := collect_votes transaction_id client_numbers participant_count
      timeout fail_before_prepare fail_after_one_commit draws
      s.participants s.transaction_state
  let s1 : TransactionCoordinator := { s with transaction_state := collected.2 }
  let handled := handle_prepare_response transaction_id jitters collected.1 s1
  (handled.1,
   Event.prepareMsg transaction_id :: Event.sleepEv timeout :: handled.2)

/-- One transaction of `start_transaction`: set the transaction's state to
`INIT` in the table and run its prepare round. -/
def start_transaction_one (transaction_id : Nat) (client_numbers : List Nat)
    (participant_count : Nat) (timeout : Nat)
    (fail_before_prepare fail_after_one_commit : Bool)
    (draws : Nat → Bool) (jitters : Nat → Nat) (s : TransactionCoordinator) :
    TransactionCoordinator × List Event :=
  send_prepare transaction_id client_numbers participant_count timeout
    fail_before_prepare fail_after_one_commit draws jitters
    { s with transaction_state := dictSet s.transaction_state transaction_id TState.INIT }

end TransactionCoordinator

/-! ### Association-list (Python dict) lemmas -/

theorem lookup_eq_none_iff {β : Type} (l : List (Nat × β)) (a : Nat) :
    l.lookup a = none ↔ a ∉ l.map Prod.fst := by
  induction l with
  | nil => simp [List.lookup]
  | cons hd tl ih =>
    obtain ⟨k, v⟩ := hd
    by_cases h : a = k
    · subst h; simp [List.lookup]
    · have hb : (a == k) = false := by simpa using h
      simp [List.lookup, hb, ih, h]

theorem lookup_isSome_of_mem {β : Type} (l : List (Nat × β)) (a : Nat)
    (h : a ∈ l.map Prod.fst) : (l.lookup a).isSome := by
  cases hl : l.lookup a with
  | none => exact absurd ((lookup_eq_none_iff l a).mp hl) (fun hn => hn h)
  | some v => rfl

theorem lookup_dictSet_self (m : Table) (k : Nat) (v : TState) :
    (dictSet m k v).lookup k = some v := by
  induction m with
  | nil => simp [dictSet, List.lookup]
  | cons hd tl ih =>
    obtain ⟨k', v'⟩ := hd
    by_cases h : k' = k
    · subst h; simp [dictSet, List.lookup]
    · have hb : (k == k') = false := by simpa using Ne.symm h
      simp [dictSet, h, List.lookup, hb, ih]

theorem mem_keys_dictSet (m : Table) (k : Nat) (v : TState) (a : Nat) :
    a ∈ (dictSet m k v).map Prod.fst ↔ a ∈ m.map Prod.fst ∨ a = k := by
  induction m with
  | nil => simp [dictSet]
  | cons hd tl ih =>
    obtain ⟨k', v'⟩ := hd
    by_cases h : k' = k
    · subst h; constructor
      · intro ha; rcases (by simpa [dictSet] using ha) with ha | ha
        · exact Or.inr ha
        · exact Or.inl (by simp [ha])
      · intro ha; rcases ha with ha | ha
        · rcases (by simpa using ha) with ha | ha
          · exact (by simp [dictSet, ha])
          · exact (by simp [dictSet, ha])
        · simp [dictSet, ha]
    · simp [dictSet, h, ih, or_assoc]

theorem TableWF_dictSet (m : Table) (k : Nat) (v : TState) (h : TableWF m) :
    TableWF (dictSet m k v) := by
  induction m with
  | nil => simp [TableWF, dictSet]
  | cons hd tl ih =>
    obtain ⟨k', v'⟩ := hd
    rw [TableWF, List.map_cons, List.nodup_cons] at h
    by_cases hk : k' = k
    · subst hk
      rw [TableWF, dictSet, if_pos rfl, List.map_cons, List.nodup_cons]
      exact ⟨h.1, h.2⟩
    · have htl := ih h.2
      rw [TableWF, dictSet, if_neg hk, List.map_cons, List.nodup_cons]
      refine ⟨fun hmem => ?_, htl⟩
      rcases (mem_keys_dictSet tl k v k').mp hmem with hm | hm
      · exact h.1 hm
      · exact hk hm

theorem keys_dictPop_sublist (m : Table) (k : Nat) :
    ((dictPop m k).map Prod.fst).Sublist (m.map Prod.fst) := by
  induction m with
  | nil => simp [dictPop]
  | cons hd tl ih =>
    obtain ⟨k', v'⟩ := hd
    by_cases h : k' = k
    · subst h
      rw [dictPop, if_pos rfl, List.map_cons]
      exact List.sublist_cons_self _ _
    · simpa [dictPop, h] using ih.cons₂ k'

theorem TableWF_dictPop (m : Table) (k : Nat) (h : TableWF m) :
    TableWF (dictPop m k) :=
  List.Nodup.sublist (keys_dictPop_sublist m k) h

theorem dictPop_of_not_mem (m : Table) (k : Nat) (h : k ∉ m.map Prod.fst) :
    dictPop m k = m := by
  induction m with
  | nil => rfl
  | cons hd tl ih =>
    obtain ⟨k', v'⟩ := hd
    simp only [List.map_cons, List.mem_cons, not_or] at h
    rw [dictPop, if_neg (fun he => h.1 he.symm), ih h.2]

theorem lookup_dictPop_self (m : Table) (k : Nat) (h : TableWF m) :
    (dictPop m k).lookup k = none := by
  induction m with
  | nil => rfl
  | cons hd tl ih =>
    obtain ⟨k', v'⟩ := hd
    rw [TableWF, List.map_cons, List.nodup_cons] at h
    by_cases hk : k' = k
    · subst hk
      rw [dictPop, if_pos rfl, lookup_eq_none_iff]
      exact h.1
    · rw [dictPop, if_neg hk]
      have hb : (k == k') = false := by simpa using Ne.symm hk
      have hstep : (((k', v') :: dictPop tl k).lookup k) = (dictPop tl k).lookup k := by
        simp [List.lookup, hb]
      rw [hstep]
      exact ih h.2

/-! ### Characterizations of `receive_prepare` -/

theorem receive_prepare_vote (self : Participant) (transaction_id : Nat)
    (client_numbers : List Nat) (participant_count timeout : Nat)
    (fail_before_prepare fail_after_one_commit : Bool) (draw : Bool) (ts : Table) :
    (self.receive_prepare transaction_id client_numbers participant_count timeout
        fail_before_prepare fail_after_one_commit draw ts).vote =
      if fail_before_prepare = true then Vote.NO
      else if self.participant_number ∈ client_numbers ∧ draw = true then Vote.YES
      else Vote.NO := by
  unfold Participant.receive_prepare
  cases fail_before_prepare with
  | true => simp
  | false =>
    by_cases h : self.participant_number ∈ client_numbers ∧ draw = true <;> simp [h]

theorem receive_prepare_table (self : Participant) (transaction_id : Nat)
    (client_numbers : List Nat) (participant_count timeout : Nat)
    (fail_before_prepare fail_after_one_commit : Bool) (draw : Bool) (ts : Table) :
    (self.receive_prepare transaction_id client_numbers participant_count timeout
        fail_before_prepare fail_after_one_commit draw ts).table =
      if fail_before_prepare = true then ts
      else if self.participant_number ∈ client_numbers ∧ draw = true then
        dictSet ts transaction_id TState.PREPARED
      else dictSet ts transaction_id TState.ABORTED := by
  unfold Participant.receive_prepare
  cases fail_before_prepare with
  | true => simp
  | false =>
    by_cases h : self.participant_number ∈ client_numbers ∧ draw = true <;> simp [h]

theorem receive_prepare_stall (self : Participant) (transaction_id : Nat)
    (client_numbers : List Nat) (participant_count timeout : Nat)
    (fail_before_prepare fail_after_one_commit : Bool) (draw : Bool) (ts : Table) :
    (self.receive_prepare transaction_id client_numbers participant_count timeout
        fail_before_prepare fail_after_one_commit draw ts).stall =
      if fail_before_prepare = false ∧ (self.participant_number ∈ client_numbers ∧ draw = true)
          ∧ fail_after_one_commit = true ∧ self.participant_number = 1 then
        timeout + 1
      else 0 := by
  unfold Participant.receive_prepare
  cases fail_before_prepare with
  | true => simp
  | false =>
    by_cases h : self.participant_number ∈ client_numbers ∧ draw = true
    · obtain ⟨hmem, hdraw⟩ := h
      by_cases h2 : fail_after_one_commit = true ∧ self.participant_number = 1
      · obtain ⟨hfac, hpn⟩ := h2
        rw [hpn] at hmem
        simp [hmem, hdraw, hfac, hpn]
      · simp [hmem, hdraw, h2]
    · simp [h]

theorem receive_prepare_vote_indep (self : Participant) (transaction_id : Nat)
    (client_numbers : List Nat) (participant_count timeout : Nat)
    (fail_before_prepare fail_after_one_commit : Bool) (draw : Bool)
    (ts ts' : Table) :
    (self.receive_prepare transaction_id client_numbers participant_count timeout
        fail_before_prepare fail_after_one_commit draw ts).vote =
      (self.receive_prepare transaction_id client_numbers participant_count timeout
        fail_before_prepare fail_after_one_commit draw ts').vote := by
  rw [receive_prepare_vote, receive_prepare_vote]

/-! ### Lemmas about the coordinator's loops -/

namespace TransactionCoordinator

theorem collect_votes_keys (transaction_id : Nat) (client_numbers : List Nat)
    (participant_count timeout : Nat) (f1 f2 : Bool) (draws : Nat → Bool)
    (parts : List (Nat × Participant)) (ts : Table) :
    (collect_votes transaction_id client_numbers participant_count timeout
        f1 f2 draws parts ts).1.map Prod.fst = parts.map Prod.fst := by
  induction parts generalizing ts with
  | nil => rfl
  | cons pr rest ih => simp [collect_votes, ih]

theorem collect_votes_mem_vote (transaction_id : Nat) (client_numbers : List Nat)
    (participant_count timeout : Nat) (f1 f2 : Bool) (draws : Nat → Bool)
    (parts : List (Nat × Participant)) (ts : Table)
    (pid : Nat) (p : Participant) (hmem : (pid, p) ∈ parts) :
    (pid, (p.receive_prepare transaction_id client_numbers participant_count timeout
        f1 f2 (draws pid) ts).vote)
      ∈ (collect_votes transaction_id client_numbers participant_count timeout
          f1 f2 draws parts ts).1 := by
  induction parts generalizing ts with
  | nil => cases hmem
  | cons pr rest ih =>
    rcases List.mem_cons.mp hmem with h | h
    · subst h
      exact List.mem_cons_self _ _
    · simp only [collect_votes]
      refine List.mem_cons_of_mem _ ?_
      rw [receive_prepare_vote_indep p transaction_id client_numbers participant_count
        timeout f1 f2 (draws pid) ts ((pr.2.receive_prepare transaction_id client_numbers
          participant_count timeout f1 f2 (draws pr.1) ts).table)]
      exact ih _ h

theorem collect_votes_fbp (transaction_id : Nat) (client_numbers : List Nat)
    (participant_count timeout : Nat) (f2 : Bool) (draws : Nat → Bool)
    (parts : List (Nat × Participant)) (ts : Table) :
    collect_votes transaction_id client_numbers participant_count timeout
        true f2 draws parts ts
      = (parts.map (fun pr => (pr.1, Vote.NO)), ts) := by
  induction parts generalizing ts with
  | nil => rfl
  | cons pr rest ih => simp [collect_votes, Participant.receive_prepare, ih]

theorem notifyAll_fst (transaction_id : Nat) (jitters : Nat → Nat)
    (parts : List (Nat × Participant)) (s : TransactionCoordinator) :
    (notifyAll transaction_id jitters parts s).1 = s := by
  induction parts with
  | nil => rfl
  | cons pr rest ih => simp [notifyAll, Participant.receive_commit, ih]

theorem notifyAll_events (transaction_id : Nat) (jitters : Nat → Nat)
    (parts : List (Nat × Participant)) (s : TransactionCoordinator) :
    (notifyAll transaction_id jitters parts s).2
      = (parts.map (fun pr =>
          (pr.2.receive_commit transaction_id (jitters pr.1) s).2)).flatten := by
  induction parts with
  | nil => rfl
  | cons pr rest ih => simp [notifyAll, Participant.receive_commit, ih]

theorem notifyAll_events_shape (transaction_id : Nat) (jitters : Nat → Nat)
    (parts : List (Nat × Participant)) (s : TransactionCoordinator) (e : Event)
    (he : e ∈ (notifyAll transaction_id jitters parts s).2) :
    (∃ pid d, e = Event.jitterSleep pid d)
      ∨ (∃ pid, e = Event.receiveCommitMsg pid transaction_id)
      ∨ (∃ pid, e = Event.commitOk pid transaction_id)
      ∨ (∃ pid, e = Event.unexpectedCommit pid transaction_id) := by
  rw [notifyAll_events] at he
  rcases List.mem_flatten.mp he with ⟨l, hl, hel⟩
  rcases List.mem_map.mp hl with ⟨pr, _, rfl⟩
  rw [Participant.receive_commit] at hel
  rcases List.mem_cons.mp hel with rfl | hel
  · exact Or.inl ⟨_, _, rfl⟩
  rcases List.mem_cons.mp hel with rfl | hel
  · exact Or.inr (Or.inl ⟨_, rfl⟩)
  by_cases hc : s.transaction_state.lookup transaction_id = some TState.PREPARED
  · rw [if_pos hc] at hel
    rcases List.mem_singleton.mp hel with rfl
    exact Or.inr (Or.inr (Or.inl ⟨_, rfl⟩))
  · rw [if_neg hc] at hel
    rcases List.mem_singleton.mp hel with rfl
    exact Or.inr (Or.inr (Or.inr ⟨_, rfl⟩))

theorem notifyAll_mem_receiveCommitMsg (transaction_id : Nat) (jitters : Nat → Nat)
    (parts : List (Nat × Participant)) (s : TransactionCoordinator)
    (pid : Nat) (p : Participant) (h : (pid, p) ∈ parts) :
    Event.receiveCommitMsg p.participant_number transaction_id
      ∈ (notifyAll transaction_id jitters parts s).2 := by
  rw [notifyAll_events]
  refine List.mem_flatten.mpr
    ⟨(p.receive_commit transaction_id (jitters pid) s).2,
     List.mem_map_of_mem _ h, ?_⟩
  rw [Participant.receive_commit]
  exact List.mem_cons_of_mem _ (List.mem_cons_self _ _)

theorem notifyAll_mem_commitOk (transaction_id : Nat) (jitters : Nat → Nat)
    (parts : List (Nat × Participant)) (s : TransactionCoordinator)
    (hprep : s.transaction_state.lookup transaction_id = some TState.PREPARED)
    (pid : Nat) (p : Participant) (h : (pid, p) ∈ parts) :
    Event.commitOk p.participant_number transaction_id
      ∈ (notifyAll transaction_id jitters parts s).2 := by
  rw [notifyAll_events]
  refine List.mem_flatten.mpr
    ⟨(p.receive_commit transaction_id (jitters pid) s).2,
     List.mem_map_of_mem _ h, ?_⟩
  rw [Participant.receive_commit, if_pos hprep]
  exact List.mem_cons_of_mem _ (List.mem_cons_of_mem _ (List.mem_singleton.mpr rfl))

theorem abort_participant_connection (p : Participant) (transaction_id : Nat) :
    (p.abort_transaction transaction_id).1.connection = none := by
  rw [Participant.abort_transaction]
  cases hc : p.connection <;> simp [hc]

theorem abortAll_conn_none (transaction_id : Nat)
    (parts : List (Nat × Participant)) :
    ∀ pr ∈ (abortAll transaction_id parts).1, pr.2.connection = none := by
  induction parts with
  | nil => intro pr hpr; cases hpr
  | cons hd rest ih =>
    intro pr hpr
    rcases List.mem_cons.mp hpr with h | h
    · subst h
      exact abort_participant_connection hd.2 transaction_id
    · exact ih pr h

theorem abortAll_of_conn_none (transaction_id : Nat)
    (parts : List (Nat × Participant))
    (h : ∀ pr ∈ parts, pr.2.connection = none) :
    abortAll transaction_id parts = (parts, []) := by
  induction parts with
  | nil => rfl
  | cons hd rest ih =>
    obtain ⟨pid, p⟩ := hd
    have hhd : p.connection = none := h (pid, p) (List.mem_cons_self _ _)
    have hrest := ih (fun pr hpr => h pr (List.mem_cons_of_mem _ hpr))
    simp [abortAll, Participant.abort_transaction, hhd, hrest]

theorem abortAll_events_shape (transaction_id : Nat)
    (parts : List (Nat × Participant)) (e : Event)
    (he : e ∈ (abortAll transaction_id parts).2) :
    ∃ pid, e = Event.closeConn pid transaction_id := by
  induction parts with
  | nil => cases he
  | cons hd rest ih =>
    rw [abortAll] at he
    rcases List.mem_append.mp he with h | h
    · rw [Participant.abort_transaction] at h
      by_cases hc : hd.2.connection.isSome
      · rw [if_pos hc] at h
        rcases List.mem_singleton.mp h with rfl
        exact ⟨_, rfl⟩
      · rw [if_neg hc] at h
        cases h
    · exact ih h

theorem handle_prepare_response_all_yes (transaction_id : Nat) (jitters : Nat → Nat)
    (responses : List (Nat × Vote)) (s : TransactionCoordinator)
    (h : ∀ r ∈ responses, r.2 = Vote.YES) :
    handle_prepare_response transaction_id jitters responses s
      = send_commit transaction_id jitters s := by
  rw [handle_prepare_response, if_pos h]

theorem handle_prepare_response_some_no (transaction_id : Nat) (jitters : Nat → Nat)
    (responses : List (Nat × Vote)) (s : TransactionCoordinator)
    (r0 : Nat × Vote) (h : r0 ∈ responses) (hno : r0.2 = Vote.NO) :
    handle_prepare_response transaction_id jitters responses s
      = abort_transaction transaction_id s := by
  have h1 : ¬ ∀ r ∈ responses, r.2 = Vote.YES := by
    intro hall
    have := hall r0 h
    rw [hno] at this
    cases this
  rw [handle_prepare_response, if_neg h1, if_pos ⟨r0, h, hno⟩]

end TransactionCoordinator

namespace TransactionCoordinator

theorem send_commit_fst (transaction_id : Nat) (jitters : Nat → Nat)
    (s : TransactionCoordinator) :
    (send_commit transaction_id jitters s).1
      = { s with transaction_state := dictPop s.transaction_state transaction_id } := by
  simp only [send_commit, notifyAll_fst]

theorem send_commit_events (transaction_id : Nat) (jitters : Nat → Nat)
    (s : TransactionCoordinator) :
    (send_commit transaction_id jitters s).2
      = Event.commitMsg transaction_id
          :: (notifyAll transaction_id jitters s.participants s).2
          ++ Event.committedLog transaction_id
          :: (s.participants.map
                (fun pr => pr.2.wait_commit_finish transaction_id)).flatten
          ++ [Event.removeEntry transaction_id, Event.sleepEv 1] := by
  simp only [send_commit, notifyAll_fst]

theorem abort_transaction_fst (transaction_id : Nat) (s : TransactionCoordinator) :
    (abort_transaction transaction_id s).1
      = { participants := (abortAll transaction_id s.participants).1
          transaction_state := dictPop s.transaction_state transaction_id } := rfl

theorem abort_transaction_events (transaction_id : Nat) (s : TransactionCoordinator) :
    (abort_transaction transaction_id s).2
      = Event.abortedLog transaction_id :: (abortAll transaction_id s.participants).2 := rfl

end TransactionCoordinator

/-! ### A trace-ordering helper -/

theorem indexOf_append_lt {α : Type} [DecidableEq α] (A B : List α) (x y : α)
    (hx : x ∈ A) (hy : y ∉ A) :
    (A ++ B).indexOf x < (A ++ B).indexOf y := by
  rw [List.indexOf_append_of_mem hx, List.indexOf_append_of_not_mem hy]
  exact lt_of_lt_of_le (List.indexOf_lt_length.mpr hx) (Nat.le_add_right _ _)

/-! ### The claims -/

open TransactionCoordinator

/-- C1: for every completed prepare round, the coordinator's decision over the
collected vote map is: if every registered participant's vote is `YES`, it
invokes the commit path (`send_commit`); if any vote is `NO`, it aborts
(`abort_transaction`); and in every remaining case — a registered participant
id with no vote recorded, which a completed round in fact never produces — it
also aborts.  The last conjunct shows the collected map covers exactly the
registered participant ids, so the missing-vote fallback is vacuous. -/
theorem C1_decision_rule (transaction_id : Nat) (client_numbers : List Nat)
    (participant_count timeout : Nat) (f1 f2 : Bool) (draws : Nat → Bool)
    (jitters : Nat → Nat) (parts : List (Nat × Participant)) (ts : Table) :
    ((∀ r ∈ (collect_votes transaction_id client_numbers participant_count timeout
        f1 f2 draws parts ts).1, r.2 = Vote.YES) →
      ∀ s : TransactionCoordinator,
        handle_prepare_response transaction_id jitters
            (collect_votes transaction_id client_numbers participant_count timeout
              f1 f2 draws parts ts).1 s
          = send_commit transaction_id jitters s) ∧
    ((∃ r ∈ (collect_votes transaction_id client_numbers participant_count timeout
        f1 f2 draws parts ts).1, r.2 = Vote.NO) →
      ∀ s : TransactionCoordinator,
        handle_prepare_response transaction_id jitters
            (collect_votes transaction_id client_numbers participant_count timeout
              f1 f2 draws parts ts).1 s
          = abort_transaction transaction_id s) ∧
    ((∃ pid ∈ parts.map Prod.fst,
        ((collect_votes transaction_id client_numbers participant_count timeout
          f1 f2 draws parts ts).1.lookup pid) = none) →
      ∀ s : TransactionCoordinator,
        handle_prepare_response transaction_id jitters
            (collect_votes transaction_id client_numbers participant_count timeout
              f1 f2 draws parts ts).1 s
          = abort_transaction transaction_id s) ∧
    ((collect_votes transaction_id client_numbers participant_count timeout
        f1 f2 draws parts ts).1.map Prod.fst = parts.map Prod.fst) := by
  refine ⟨fun h s => handle_prepare_response_all_yes _ _ _ _ h, fun h s => ?_,
    fun h s => ?_, collect_votes_keys _ _ _ _ _ _ _ _ _⟩
  · rcases h with ⟨r0, hr0, hno⟩
    exact handle_prepare_response_some_no _ _ _ _ r0 hr0 hno
  · rcases h with ⟨pid, hpid, hnone⟩
    have hmem : pid ∈ (collect_votes transaction_id client_numbers participant_count
        timeout f1 f2 draws parts ts).1.map Prod.fst := by
      rw [collect_votes_keys]
      exact hpid
    have hsome := lookup_isSome_of_mem _ pid hmem
    rw [hnone] at hsome
    cases hsome

/-- C1 witness: a concrete all-`YES` round takes the commit path. -/
theorem C1_decision_rule_witness :
    handle_prepare_response 7 (fun _ => 0)
        (collect_votes 7 [1] 1 5 false false (fun _ => true)
          [(1, ⟨1, some 1⟩)] []).1
        ⟨[(1, ⟨1, some 1⟩)], [(7, TState.PREPARED)]⟩
      = send_commit 7 (fun _ => 0) ⟨[(1, ⟨1, some 1⟩)], [(7, TState.PREPARED)]⟩ :=
  (C1_decision_rule 7 [1] 1 5 false false (fun _ => true) (fun _ => 0)
    [(1, ⟨1, some 1⟩)] []).1 (by decide) _

/-- C9: `receive_commit` performs no state transition: the coordinator's
transaction-state table, the participant registry (and with it every
participant's connection handle) are returned unchanged; the call only reads
the table entry for the transaction id and logs a successful commit when it
reads `PREPARED`, and an unexpected-commit condition otherwise. -/
theorem C9_receive_commit_frame (p : Participant) (transaction_id : Nat)
    (jitter : Nat) (s : TransactionCoordinator) :
    (p.receive_commit transaction_id jitter s).1 = s ∧
    (s.transaction_state.lookup transaction_id = some TState.PREPARED →
      (p.receive_commit transaction_id jitter s).2 =
        [Event.jitterSleep p.participant_number jitter,
         Event.receiveCommitMsg p.participant_number transaction_id,
         Event.commitOk p.participant_number transaction_id]) ∧
    (s.transaction_state.lookup transaction_id ≠ some TState.PREPARED →
      (p.receive_commit transaction_id jitter s).2 =
        [Event.jitterSleep p.participant_number jitter,
         Event.receiveCommitMsg p.participant_number transaction_id,
         Event.unexpectedCommit p.participant_number transaction_id]) := by
  refine ⟨rfl, fun h => ?_, fun h => ?_⟩
  · simp [Participant.receive_commit, h]
  · simp [Participant.receive_commit, h]

/-- C9 witness: a concrete `receive_commit` call on a `PREPARED` entry logs a
successful commit (and by the theorem's first conjunct changes no state). -/
theorem C9_receive_commit_frame_witness :
    (Participant.receive_commit ⟨1, some 1⟩ 7 3
        ⟨[(1, ⟨1, some 1⟩)], [(7, TState.PREPARED)]⟩).2
      = [Event.jitterSleep 1 3, Event.receiveCommitMsg 1 7, Event.commitOk 1 7] :=
  (C9_receive_commit_frame ⟨1, some 1⟩ 7 3
    ⟨[(1, ⟨1, some 1⟩)], [(7, TState.PREPARED)]⟩).2.1 (by decide)

/-- C2: if `failBeforePrepare` is true, every `receive_prepare` call votes
`NO` regardless of the eligible-client configuration, and consequently every
prepare round (with the registry nonempty, as every run of the program
guarantees) ends in abort: the round is exactly an `abort_transaction` on the
unchanged state, since the failing participants perform no table write. -/
theorem C2_fail_before_prepare (transaction_id : Nat) (client_numbers : List Nat)
    (participant_count timeout : Nat) (fac : Bool) (draws : Nat → Bool)
    (jitters : Nat → Nat) (s : TransactionCoordinator)
    (hne : s.participants ≠ []) :
    (∀ (p : Participant) (draw : Bool) (ts : Table),
      (p.receive_prepare transaction_id client_numbers participant_count timeout
          true fac draw ts).vote = Vote.NO) ∧
    send_prepare transaction_id client_numbers participant_count timeout
        true fac draws jitters s
      = ((abort_transaction transaction_id s).1,
         Event.prepareMsg transaction_id :: Event.sleepEv timeout
           :: (abort_transaction transaction_id s).2) := by
  constructor
  · intro p draw ts
    rw [receive_prepare_vote]
    simp
  · obtain ⟨pr0, rest, hparts⟩ : ∃ pr0 rest, s.participants = pr0 :: rest := by
      cases hp : s.participants with
      | nil => exact absurd hp hne
      | cons a b => exact ⟨a, b, rfl⟩
    have hcollect := collect_votes_fbp transaction_id client_numbers participant_count
      timeout fac draws s.participants s.transaction_state
    have hr0 : (pr0.1, Vote.NO) ∈ s.participants.map (fun pr => (pr.1, Vote.NO)) := by
      rw [hparts, List.map_cons]
      exact List.mem_cons_self _ _
    have hhandle := handle_prepare_response_some_no transaction_id jitters
      (s.participants.map (fun pr => (pr.1, Vote.NO))) s (pr0.1, Vote.NO) hr0 rfl
    simp only [send_prepare, hcollect, hhandle]

/-- C2 witness: a concrete one-participant round with `failBeforePrepare` set
ends in abort with the table untouched before the abort's own pop. -/
theorem C2_fail_before_prepare_witness :
    send_prepare 9 [1] 1 4 true false (fun _ => true) (fun _ => 0)
        ⟨[(1, ⟨1, some 1⟩)], [(9, TState.INIT)]⟩
      = ((abort_transaction 9 ⟨[(1, ⟨1, some 1⟩)], [(9, TState.INIT)]⟩).1,
         Event.prepareMsg 9 :: Event.sleepEv 4
           :: (abort_transaction 9 ⟨[(1, ⟨1, some 1⟩)], [(9, TState.INIT)]⟩).2) :=
  (C2_fail_before_prepare 9 [1] 1 4 false (fun _ => true) (fun _ => 0)
    ⟨[(1, ⟨1, some 1⟩)], [(9, TState.INIT)]⟩ (by decide)).2

/-- C3 counterexample: with `failBeforePrepare` set, `receive_prepare` resolves
its vote to `NO` yet returns without writing `ABORTED` (or anything) into the
coordinator's transaction-state table, refuting the claim as stated for those
calls. -/
theorem C3_counterexample :
    (Participant.receive_prepare ⟨2, none⟩ 7 [2] 2 5 true false true []).vote
        = Vote.NO ∧
    (Participant.receive_prepare ⟨2, none⟩ 7 [2] 2 5 true false true []).table.lookup 7
        ≠ some TState.ABORTED := by
  decide

/-- C3 (amended): for every `receive_prepare` call with `failBeforePrepare`
unset, the participant writes the state corresponding to its resulting vote —
`PREPARED` on a `YES` vote, `ABORTED` on a `NO` vote — into the coordinator's
shared transaction-state table keyed by that transaction id before the call
returns; with `failBeforePrepare` set, the `NO` vote is returned without any
table write. -/
theorem C3_prepare_writes_state (self : Participant) (transaction_id : Nat)
    (client_numbers : List Nat) (participant_count timeout : Nat)
    (fac : Bool) (draw : Bool) (ts : Table) :
    ((self.receive_prepare transaction_id client_numbers participant_count timeout
        false fac draw ts).table.lookup transaction_id
      = some (if (self.receive_prepare transaction_id client_numbers participant_count
            timeout false fac draw ts).vote = Vote.YES
          then TState.PREPARED else TState.ABORTED)) ∧
    (self.receive_prepare transaction_id client_numbers participant_count timeout
        true fac draw ts).table = ts := by
  constructor
  · rw [receive_prepare_table, receive_prepare_vote]
    by_cases h : self.participant_number ∈ client_numbers ∧ draw = true
    · simp [h, lookup_dictSet_self]
    · simp [h, lookup_dictSet_self]
  · rw [receive_prepare_table]
    simp

/-- C4: with `failBeforePrepare` unset, `receive_prepare` returns `YES` iff
the participant's number is among the transaction's eligible client numbers
and the weighted random draw succeeded; consequently a registered participant
whose number is not eligible always votes `NO`, and any round including such
a participant ends in the abort path — the round's trace shows the abort and
never a commit message — even if every other participant votes `YES`. -/
theorem C4_eligibility (transaction_id : Nat) (client_numbers : List Nat)
    (participant_count timeout : Nat) (fac : Bool) (p : Participant) :
    (∀ (draw : Bool) (ts : Table),
      ((p.receive_prepare transaction_id client_numbers participant_count timeout
          false fac draw ts).vote = Vote.YES
        ↔ p.participant_number ∈ client_numbers ∧ draw = true)) ∧
    (∀ (draws : Nat → Bool) (jitters : Nat → Nat) (pid : Nat)
        (s : TransactionCoordinator),
      (pid, p) ∈ s.participants → p.participant_number ∉ client_numbers →
      Event.abortedLog transaction_id
          ∈ (send_prepare transaction_id client_numbers participant_count timeout
              false fac draws jitters s).2 ∧
      Event.commitMsg transaction_id
          ∉ (send_prepare transaction_id client_numbers participant_count timeout
              false fac draws jitters s).2) := by
  constructor
  · intro draw ts
    rw [receive_prepare_vote]
    by_cases h : p.participant_number ∈ client_numbers ∧ draw = true <;> simp [h]
  · intro draws jitters pid s hp hncl
    have hvote : (p.receive_prepare transaction_id client_numbers participant_count
        timeout false fac (draws pid) s.transaction_state).vote = Vote.NO := by
      rw [receive_prepare_vote]
      simp [hncl]
    have hr0 := collect_votes_mem_vote transaction_id client_numbers participant_count
      timeout false fac draws s.participants s.transaction_state pid p hp
    rw [hvote] at hr0
    have hhandle := handle_prepare_response_some_no transaction_id jitters _
      ({ s with transaction_state :=
          (collect_votes transaction_id client_numbers participant_count timeout
            false fac draws s.participants s.transaction_state).2 })
      _ hr0 rfl
    constructor
    · simp only [send_prepare]
      rw [hhandle, abort_transaction_events]
      simp
    · simp only [send_prepare]
      rw [hhandle, abort_transaction_events]
      intro hcm
      simp only [List.mem_cons] at hcm
      rcases hcm with h | h | h | h
      · exact Event.noConfusion h
      · exact Event.noConfusion h
      · exact Event.noConfusion h
      · rcases abortAll_events_shape _ _ _ h with ⟨pid2, h2⟩
        exact Event.noConfusion h2

/-- C4 witness: a concrete round whose participant 2 is not eligible (clients
= {1}) aborts. -/
theorem C4_eligibility_witness :
    Event.abortedLog 7
      ∈ (send_prepare 7 [1] 2 5 false false (fun _ => true) (fun _ => 0)
          ⟨[(1, ⟨1, some 1⟩), (2, ⟨2, some 2⟩)], []⟩).2 :=
  ((C4_eligibility 7 [1] 2 5 false ⟨2, some 2⟩).2 (fun _ => true) (fun _ => 0) 2
    ⟨[(1, ⟨1, some 1⟩), (2, ⟨2, some 2⟩)], []⟩ (by decide) (by decide)).1

/-- C5: a transaction id maps to at most one entry of the coordinator's
transaction-state table at any time — the no-duplicate-keys invariant is
preserved by every table operation the program performs (the `INIT` write of
`start_transaction`, the participant's write inside `receive_prepare`, and
the pops of the terminal paths) — and whichever terminal path the round takes
(`send_commit` or `abort_transaction`) removes that id's entry from the table
before the path finishes. -/
theorem C5_table_invariant (transaction_id : Nat) (v : TState)
    (jitters : Nat → Nat) (s : TransactionCoordinator)
    (h : TableWF s.transaction_state) :
    TableWF (dictSet s.transaction_state transaction_id v) ∧
    (∀ (p : Participant) (client_numbers : List Nat)
        (participant_count timeout : Nat) (f1 f2 : Bool) (draw : Bool),
      TableWF (p.receive_prepare transaction_id client_numbers participant_count
          timeout f1 f2 draw s.transaction_state).table) ∧
    TableWF ((send_commit transaction_id jitters s).1.transaction_state) ∧
    TableWF ((abort_transaction transaction_id s).1.transaction_state) ∧
    (send_commit transaction_id jitters s).1.transaction_state.lookup transaction_id
        = none ∧
    (abort_transaction transaction_id s).1.transaction_state.lookup transaction_id
        = none := by
  refine ⟨TableWF_dictSet _ _ _ h, ?_, ?_, ?_, ?_, ?_⟩
  · intro p cn pc tm f1 f2 draw
    rw [receive_prepare_table]
    split_ifs with h1 h2
    · exact h
    · exact TableWF_dictSet _ _ _ h
    · exact TableWF_dictSet _ _ _ h
  · rw [send_commit_fst]
    exact TableWF_dictPop _ _ h
  · rw [abort_transaction_fst]
    exact TableWF_dictPop _ _ h
  · rw [send_commit_fst]
    exact lookup_dictPop_self _ _ h
  · rw [abort_transaction_fst]
    exact lookup_dictPop_self _ _ h

/-- C5 witness: committing a concrete transaction removes its entry from a
concrete well-formed table. -/
theorem C5_table_invariant_witness :
    (send_commit 7 (fun _ => 0)
        ⟨[(1, ⟨1, some 1⟩)], [(7, TState.PREPARED), (9, TState.INIT)]⟩).1.transaction_state.lookup 7
      = none :=
  (C5_table_invariant 7 TState.INIT (fun _ => 0)
    ⟨[(1, ⟨1, some 1⟩)], [(7, TState.PREPARED), (9, TState.INIT)]⟩
    (by decide)).2.2.2.2.1

/-- C6: the coordinator's abort is idempotent: invoking `abort_transaction`
again after the id's entry has already been removed by a first abort raises
nothing (like Python's `pop(tid, None)`, `dictPop` on an absent key simply
returns the table) and is a no-op — the state is unchanged, the id is still
absent from the table, and every registered participant's connection handle,
already cleared by the first abort, stays cleared. -/
theorem C6_abort_idempotent (transaction_id : Nat) (s : TransactionCoordinator)
    (h : TableWF s.transaction_state) :
    (abort_transaction transaction_id (abort_transaction transaction_id s).1).1
        = (abort_transaction transaction_id s).1 ∧
    (abort_transaction transaction_id s).1.transaction_state.lookup transaction_id
        = none ∧
    (∀ pr ∈ (abort_transaction transaction_id s).1.participants,
      pr.2.connection = none) := by
  have hconn := abortAll_conn_none transaction_id s.participants
  have hpop : (dictPop s.transaction_state transaction_id).lookup transaction_id
      = none := lookup_dictPop_self _ _ h
  have hnomem : transaction_id
      ∉ (dictPop s.transaction_state transaction_id).map Prod.fst :=
    (lookup_eq_none_iff _ _).mp hpop
  refine ⟨?_, ?_, ?_⟩
  · rw [abort_transaction_fst, abort_transaction_fst]
    simp only [abortAll_of_conn_none _ _ hconn, dictPop_of_not_mem _ _ hnomem]
  · rw [abort_transaction_fst]
    exact hpop
  · rw [abort_transaction_fst]
    exact hconn

/-- C6 witness: a concrete double abort is a no-op relative to the first. -/
theorem C6_abort_idempotent_witness :
    (abort_transaction 7
        (abort_transaction 7 ⟨[(1, ⟨1, some 1⟩)], [(7, TState.ABORTED)]⟩).1).1
      = (abort_transaction 7 ⟨[(1, ⟨1, some 1⟩)], [(7, TState.ABORTED)]⟩).1 :=
  (C6_abort_idempotent 7 ⟨[(1, ⟨1, some 1⟩)], [(7, TState.ABORTED)]⟩ (by decide)).1

/-- C8: `receive_prepare` stalls after its vote for exactly `timeout + 1` time
units — strictly longer than the coordinator's decision wait of `timeout` —
precisely when the vote resolves to `YES`, `failAfterOneCommit` is set, and
the participant's number is the sentinel id `1`; in every other case (another
id, the flag unset, or a `NO` vote) the post-vote stall is `0`. -/
theorem C8_sentinel_stall (self : Participant) (transaction_id : Nat)
    (client_numbers : List Nat) (participant_count timeout : Nat)
    (fbp fac : Bool) (draw : Bool) (ts : Table) :
    ((self.receive_prepare transaction_id client_numbers participant_count timeout
        fbp fac draw ts).stall = timeout + 1
      ↔ ((self.receive_prepare transaction_id client_numbers participant_count
            timeout fbp fac draw ts).vote = Vote.YES
          ∧ fac = true ∧ self.participant_number = 1)) ∧
    (¬((self.receive_prepare transaction_id client_numbers participant_count
          timeout fbp fac draw ts).vote = Vote.YES
        ∧ fac = true ∧ self.participant_number = 1) →
      (self.receive_prepare transaction_id client_numbers participant_count timeout
          fbp fac draw ts).stall = 0) ∧
    timeout < timeout + 1 := by
  rw [receive_prepare_stall, receive_prepare_vote]
  by_cases h : fbp = false ∧ (self.participant_number ∈ client_numbers ∧ draw = true)
      ∧ fac = true ∧ self.participant_number = 1
  · obtain ⟨h1, h2, h3, h4⟩ := h
    obtain ⟨h2a, h2b⟩ := h2
    have h2c : (1 : Nat) ∈ client_numbers := h4 ▸ h2a
    refine ⟨?_, ?_, Nat.lt_succ_self timeout⟩
    · rw [if_pos ⟨h1, ⟨h2a, h2b⟩, h3, h4⟩, h1]
      simp [h2a, h2b, h2c, h3, h4]
    · intro hn
      exfalso
      apply hn
      rw [h1]
      simp [h2a, h2b, h2c, h3, h4]
  · refine ⟨?_, fun _ => if_neg h, Nat.lt_succ_self timeout⟩
    rw [if_neg h]
    constructor
    · intro h0
      exact absurd h0 (by omega)
    · rintro ⟨hyes, hfac, hpn⟩
      exfalso
      apply h
      by_cases hfbp : fbp = true
      · rw [if_pos hfbp] at hyes
        cases hyes
      · have hfbp' : fbp = false := by
          cases fbp
          · rfl
          · exact absurd rfl hfbp
        rw [if_neg hfbp] at hyes
        by_cases hmd : self.participant_number ∈ client_numbers ∧ draw = true
        · exact ⟨hfbp', hmd, hfac, hpn⟩
        · rw [if_neg hmd] at hyes
          cases hyes

/-- C8 witness: the concrete sentinel participant 1, eligible and with the
flag set, stalls for `timeout + 1 = 6` when `timeout = 5`. -/
theorem C8_sentinel_stall_witness :
    (Participant.receive_prepare ⟨1, some 1⟩ 7 [1] 2 5 false true true []).stall
      = 5 + 1 :=
  (C8_sentinel_stall ⟨1, some 1⟩ 7 [1] 2 5 false true true []).1.mpr (by decide)

/-- C10: with an empty participant registry a prepare round takes the commit
branch — the all-`YES` condition holds vacuously over the empty vote map — so
the transaction is treated as committed: the round is exactly a `send_commit`
on the unchanged state and the transaction's state entry is removed, rather
than the round aborting for lack of votes. -/
theorem C10_empty_registry_commits (transaction_id : Nat) (client_numbers : List Nat)
    (participant_count timeout : Nat) (f1 f2 : Bool) (draws : Nat → Bool)
    (jitters : Nat → Nat) (s : TransactionCoordinator)
    (hemp : s.participants = []) (hwf : TableWF s.transaction_state) :
    send_prepare transaction_id client_numbers participant_count timeout
        f1 f2 draws jitters s
      = ((send_commit transaction_id jitters s).1,
         Event.prepareMsg transaction_id :: Event.sleepEv timeout
           :: (send_commit transaction_id jitters s).2) ∧
    (send_prepare transaction_id client_numbers participant_count timeout
        f1 f2 draws jitters s).1.transaction_state.lookup transaction_id = none := by
  have hcollect : collect_votes transaction_id client_numbers participant_count
      timeout f1 f2 draws s.participants s.transaction_state
      = ([], s.transaction_state) := by
    rw [hemp]
    rfl
  have hhandle := handle_prepare_response_all_yes transaction_id jitters [] s
    (by intro r hr; cases hr)
  constructor
  · simp only [send_prepare, hcollect, hhandle]
  · simp only [send_prepare, hcollect, hhandle]
    rw [send_commit_fst]
    exact lookup_dictPop_self _ _ hwf

/-- C10 witness: a concrete round over an empty registry removes the
transaction's `INIT` entry via the commit path. -/
theorem C10_empty_registry_commits_witness :
    (send_prepare 7 [1] 0 5 false false (fun _ => true) (fun _ => 0)
        ⟨[], [(7, TState.INIT)]⟩).1.transaction_state.lookup 7 = none :=
  (C10_empty_registry_commits 7 [1] 0 5 false false (fun _ => true) (fun _ => 0)
    ⟨[], [(7, TState.INIT)]⟩ rfl (by decide)).2

/-! ### Trace-shape helpers for the commit path -/

theorem waitFinish_not_mem_notify (transaction_id : Nat) (jitters : Nat → Nat)
    (parts : List (Nat × Participant)) (s : TransactionCoordinator) (pid : Nat) :
    Event.waitFinish pid transaction_id
      ∉ (notifyAll transaction_id jitters parts s).2 := by
  intro hmem
  rcases notifyAll_events_shape _ _ _ _ _ hmem with
    ⟨a, b, heq⟩ | ⟨a, heq⟩ | ⟨a, heq⟩ | ⟨a, heq⟩ <;> exact Event.noConfusion heq

theorem removeEntry_not_mem_notify (transaction_id : Nat) (jitters : Nat → Nat)
    (parts : List (Nat × Participant)) (s : TransactionCoordinator) :
    Event.removeEntry transaction_id
      ∉ (notifyAll transaction_id jitters parts s).2 := by
  intro hmem
  rcases notifyAll_events_shape _ _ _ _ _ hmem with
    ⟨a, b, heq⟩ | ⟨a, heq⟩ | ⟨a, heq⟩ | ⟨a, heq⟩ <;> exact Event.noConfusion heq

theorem sleepEv_not_mem_notify (transaction_id : Nat) (jitters : Nat → Nat)
    (parts : List (Nat × Participant)) (s : TransactionCoordinator) (d : Nat) :
    Event.sleepEv d ∉ (notifyAll transaction_id jitters parts s).2 := by
  intro hmem
  rcases notifyAll_events_shape _ _ _ _ _ hmem with
    ⟨a, b, heq⟩ | ⟨a, heq⟩ | ⟨a, heq⟩ | ⟨a, heq⟩ <;> exact Event.noConfusion heq

theorem wait_events_shape (transaction_id : Nat) (parts : List (Nat × Participant)) :
    ∀ e ∈ (parts.map (fun pr => pr.2.wait_commit_finish transaction_id)).flatten,
      ∃ pid, e = Event.waitFinish pid transaction_id := by
  intro e he
  rcases List.mem_flatten.mp he with ⟨l, hl, hel⟩
  rcases List.mem_map.mp hl with ⟨pr, _, rfl⟩
  rw [Participant.wait_commit_finish] at hel
  rcases List.mem_singleton.mp hel with rfl
  exact ⟨_, rfl⟩

theorem waitFinish_mem_wait_events (transaction_id : Nat)
    (parts : List (Nat × Participant)) (pid : Nat) (p : Participant)
    (h : (pid, p) ∈ parts) :
    Event.waitFinish p.participant_number transaction_id
      ∈ (parts.map (fun pr => pr.2.wait_commit_finish transaction_id)).flatten := by
  refine List.mem_flatten.mpr ⟨p.wait_commit_finish transaction_id,
    List.mem_map_of_mem _ h, ?_⟩
  rw [Participant.wait_commit_finish]
  exact List.mem_singleton.mpr rfl

/-- C7: on the commit path the coordinator performs, in this order: a commit
notification (`receive_commit`) to every registered participant, then a
synchronous `wait_commit_finish` call to every registered participant, then
the removal of the transaction's state-table entry, then the fixed extra
disk-write delay.  The notification pass leaves the coordinator state
untouched, so the state entry is still present while the participants
process their commit notifications — in particular, when the entry reads
`PREPARED` beforehand, every participant's notification observes it and logs
a successful commit — and only the final pop changes the table. -/
theorem C7_commit_order (transaction_id : Nat) (jitters : Nat → Nat)
    (s : TransactionCoordinator) :
    (∀ pr ∈ s.participants,
      Event.receiveCommitMsg pr.2.participant_number transaction_id
          ∈ (send_commit transaction_id jitters s).2 ∧
      Event.waitFinish pr.2.participant_number transaction_id
          ∈ (send_commit transaction_id jitters s).2 ∧
      (send_commit transaction_id jitters s).2.indexOf
          (Event.receiveCommitMsg pr.2.participant_number transaction_id)
        < (send_commit transaction_id jitters s).2.indexOf
            (Event.waitFinish pr.2.participant_number transaction_id) ∧
      (send_commit transaction_id jitters s).2.indexOf
          (Event.waitFinish pr.2.participant_number transaction_id)
        < (send_commit transaction_id jitters s).2.indexOf
            (Event.removeEntry transaction_id)) ∧
    Event.removeEntry transaction_id ∈ (send_commit transaction_id jitters s).2 ∧
    Event.sleepEv 1 ∈ (send_commit transaction_id jitters s).2 ∧
    (send_commit transaction_id jitters s).2.indexOf
        (Event.removeEntry transaction_id)
      < (send_commit transaction_id jitters s).2.indexOf (Event.sleepEv 1) ∧
    (notifyAll transaction_id jitters s.participants s).1 = s ∧
    (s.transaction_state.lookup transaction_id = some TState.PREPARED →
      ∀ pr ∈ s.participants,
        Event.commitOk pr.2.participant_number transaction_id
          ∈ (send_commit transaction_id jitters s).2) ∧
    (send_commit transaction_id jitters s).1.transaction_state
      = dictPop s.transaction_state transaction_id := by
  have hE1 : (send_commit transaction_id jitters s).2
      = (Event.commitMsg transaction_id
            :: (notifyAll transaction_id jitters s.participants s).2)
        ++ (Event.committedLog transaction_id
            :: ((s.participants.map
                  (fun pr => pr.2.wait_commit_finish transaction_id)).flatten
                ++ [Event.removeEntry transaction_id, Event.sleepEv 1])) := by
    rw [send_commit_events]
    simp [List.append_assoc]
  have hE2 : (send_commit transaction_id jitters s).2
      = ((Event.commitMsg transaction_id
            :: (notifyAll transaction_id jitters s.participants s).2)
          ++ (Event.committedLog transaction_id
              :: (s.participants.map
                    (fun pr => pr.2.wait_commit_finish transaction_id)).flatten))
        ++ [Event.removeEntry transaction_id, Event.sleepEv 1] := by
    rw [send_commit_events]
  have hE3 : (send_commit transaction_id jitters s).2
      = (((Event.commitMsg transaction_id
            :: (notifyAll transaction_id jitters s.participants s).2)
          ++ (Event.committedLog transaction_id
              :: (s.participants.map
                    (fun pr => pr.2.wait_commit_finish transaction_id)).flatten))
          ++ [Event.removeEntry transaction_id])
        ++ [Event.sleepEv 1] := by
    rw [send_commit_events]
    simp [List.append_assoc]
  have hwfNotA1 : ∀ pid, Event.waitFinish pid transaction_id
      ∉ Event.commitMsg transaction_id
          :: (notifyAll transaction_id jitters s.participants s).2 := by
    intro pid hmem
    rcases List.mem_cons.mp hmem with heq | hmem
    · exact Event.noConfusion heq
    · exact waitFinish_not_mem_notify _ _ _ _ _ hmem
  have hreNotA2 : Event.removeEntry transaction_id
      ∉ (Event.commitMsg transaction_id
            :: (notifyAll transaction_id jitters s.participants s).2)
        ++ (Event.committedLog transaction_id
            :: (s.participants.map
                  (fun pr => pr.2.wait_commit_finish transaction_id)).flatten) := by
    intro hmem
    rcases List.mem_append.mp hmem with hmem | hmem
    · rcases List.mem_cons.mp hmem with heq | hmem
      · exact Event.noConfusion heq
      · exact removeEntry_not_mem_notify _ _ _ _ hmem
    · rcases List.mem_cons.mp hmem with heq | hmem
      · exact Event.noConfusion heq
      · rcases wait_events_shape _ _ _ hmem with ⟨a, heq⟩
        exact Event.noConfusion heq
  have hslNotA3 : Event.sleepEv 1
      ∉ ((Event.commitMsg transaction_id
            :: (notifyAll transaction_id jitters s.participants s).2)
          ++ (Event.committedLog transaction_id
              :: (s.participants.map
                    (fun pr => pr.2.wait_commit_finish transaction_id)).flatten))
        ++ [Event.removeEntry transaction_id] := by
    intro hmem
    rcases List.mem_append.mp hmem with hmem | hmem
    · rcases List.mem_append.mp hmem with hmem | hmem
      · rcases List.mem_cons.mp hmem with heq | hmem
        · exact Event.noConfusion heq
        · exact sleepEv_not_mem_notify _ _ _ _ _ hmem
      · rcases List.mem_cons.mp hmem with heq | hmem
        · exact Event.noConfusion heq
        · rcases wait_events_shape _ _ _ hmem with ⟨a, heq⟩
          exact Event.noConfusion heq
    · rcases List.mem_singleton.mp hmem with heq
      exact Event.noConfusion heq
  refine ⟨?_, ?_, ?_, ?_, notifyAll_fst _ _ _ _, ?_, ?_⟩
  · intro pr hpr
    obtain ⟨pid, p⟩ := pr
    have hrc := notifyAll_mem_receiveCommitMsg transaction_id jitters s.participants
      s pid p hpr
    have hwfW := waitFinish_mem_wait_events transaction_id s.participants pid p hpr
    refine ⟨?_, ?_, ?_, ?_⟩
    · rw [hE1]
      exact List.mem_append_left _ (List.mem_cons_of_mem _ hrc)
    · rw [hE1]
      exact List.mem_append_right _
        (List.mem_cons_of_mem _ (List.mem_append_left _ hwfW))
    · rw [hE1]
      exact indexOf_append_lt _ _ _ _ (List.mem_cons_of_mem _ hrc)
        (hwfNotA1 p.participant_number)
    · rw [hE2]
      refine indexOf_append_lt _ _ _ _ ?_ hreNotA2
      exact List.mem_append_right _ (List.mem_cons_of_mem _ hwfW)
  · rw [hE2]
    exact List.mem_append_right _ (List.mem_cons_self _ _)
  · rw [hE1]
    refine List.mem_append_right _ (List.mem_cons_of_mem _ ?_)
    exact List.mem_append_right _ (List.mem_cons_of_mem _ (List.mem_singleton.mpr rfl))
  · rw [hE3]
    refine indexOf_append_lt _ _ _ _ ?_ hslNotA3
    exact List.mem_append_right _ (List.mem_singleton.mpr rfl)
  · intro hprep pr hpr
    obtain ⟨pid, p⟩ := pr
    rw [hE1]
    refine List.mem_append_left _ (List.mem_cons_of_mem _ ?_)
    exact notifyAll_mem_commitOk transaction_id jitters s.participants s hprep pid p hpr
  · rw [send_commit_fst]

/-- C7 witness: the `PREPARED`-observation conjunct at a concrete commit
round with one registered participant. -/
theorem C7_commit_order_witness :
    Event.commitOk 1 7
      ∈ (send_commit 7 (fun _ => 0)
          ⟨[(1, ⟨1, some 1⟩)], [(7, TState.PREPARED)]⟩).2 :=
  (C7_commit_order 7 (fun _ => 0)
    ⟨[(1, ⟨1, some 1⟩)], [(7, TState.PREPARED)]⟩).2.2.2.2.2.1 (by decide)
    (1, ⟨1, some 1⟩) (by decide)
